import Mathlib

/-
  Verification development for the LambStatus metrics time-series core.

  The repository stores scalar metric datapoints as day-partitioned blobs in
  an object store.  We embed the data model and the operations shallowly:

  * a UTC instant is a number of milliseconds since the epoch (`Nat`);
  * a UTC calendar day is the instant divided by the milliseconds per day;
  * the object store is a map from day index to an optional bucket content
    (an absent bucket means "no history for that day");
  * insert and collect operations return their result together with the
    ordered list of put calls they issued and the resulting store.

  The merge-insert engine (`insertDatapoints`), the backfill collector
  (`collect`) and the catalog lookup are modelled from the specification,
  since their implementation file is not part of the sources at hand; the
  batching entry point (`handle`) and the chart averaging helper
  (`averageDataByInterval`) are embedded directly from the sources.
-/

/-- Milliseconds in one minute. -/
def msPerMinute : Nat := 60000

/-- Milliseconds in one UTC calendar day. -/
def msPerDay : Nat := 86400000

/-- UTC calendar day index of an instant. -/
def dayOf (t : Nat) : Nat := t / msPerDay

/-- First instant of a UTC calendar day. -/
def startOfDay (d : Nat) : Nat := d * msPerDay

/-- Instant truncated to minute granularity (seconds and milliseconds zeroed). -/
def normalizeToMinute (t : Nat) : Nat := t / msPerMinute * msPerMinute

/-- A stored datapoint: a UTC instant and a numeric value. -/
structure Datapoint where
  timestamp : Nat
  value : Int
deriving DecidableEq, Repr

/-- An input datapoint as received over the API: its timestamp field is the
result of parsing the supplied string as a UTC instant (`none` when the
string does not parse). -/
structure RawDatapoint where
  timestamp : Option Nat
  value : Int
deriving DecidableEq, Repr

/-- The day-partitioned object store for one metric: each UTC day maps to an
optional bucket content; `none` means the object is absent. -/
def Store : Type := Nat → Option (List Datapoint)

/-- Overwrite one day bucket (whole-object put). -/
def updateStore (s : Store) (d : Nat) (b : List Datapoint) : Store :=
  fun d2 => if d2 = d then some b else s d2

/-- Comparison of datapoints by timestamp, non-strict. -/
def tsLE (p q : Datapoint) : Prop := p.timestamp ≤ q.timestamp

/-- Comparison of datapoints by timestamp, strict. -/
def tsLT (p q : Datapoint) : Prop := p.timestamp < q.timestamp

instance : DecidableRel tsLE := fun p q => Nat.decLe p.timestamp q.timestamp

instance : DecidableRel tsLT := fun p q => Nat.decLt p.timestamp q.timestamp

instance : IsTotal Datapoint tsLE := ⟨fun p q => Nat.le_total p.timestamp q.timestamp⟩

instance : IsTrans Datapoint tsLE := ⟨fun _ _ _ h h2 => Nat.le_trans h h2⟩

/-- Sort a bucket content ascending by timestamp. -/
def sortByTimestamp (l : List Datapoint) : List Datapoint :=
  List.insertionSort tsLE l

/-- Modelled from the spec: one merge step of the MergeInserter (§4.5 step 3b,
the implementation file of the metrics model is not among the sources).  If
the timestamp of the new point already exists in the bucket, replace the
value of that entry in place; otherwise insert the point. -/
def replaceOrInsert (bucket : List Datapoint) (p : Datapoint) : List Datapoint :=
  if bucket.any (fun q => q.timestamp == p.timestamp) then
    bucket.map (fun q => if q.timestamp == p.timestamp then ⟨q.timestamp, p.value⟩ else q)
  else
    bucket ++ [p]

/-- Modelled from the spec: merge a batch of new points of one day into the
existing bucket and re-sort ascending by timestamp (§4.5 step 3b). -/
def mergeDay (bucket news : List Datapoint) : List Datapoint :=
  sortByTimestamp (news.foldl replaceOrInsert bucket)

/-- Modelled from the spec: validation pass of `insertDatapoints` (§4.5
step 1).  Every input timestamp must parse as a UTC instant; the first
failure aborts the whole call with a format error. -/
def validatePoints : List RawDatapoint → Except String (List Datapoint)
  | [] => .ok []
  | p :: rest =>
    match p.timestamp with
    | none => .error "invalid timestamp"
    | some t =>
      match validatePoints rest with
      | .error e => .error e
      | .ok ps => .ok (⟨t, p.value⟩ :: ps)

/-- New points falling on one UTC calendar day, in input order (§4.5 step 2). -/
def pointsOfDay (d : Nat) (pts : List Datapoint) : List Datapoint :=
  pts.filter (fun p => dayOf p.timestamp == d)

/-- Distinct UTC days touched by the input batch, in ascending order
(§4.5 step 3). -/
def touchedDays (pts : List Datapoint) : List Nat :=
  List.insertionSort (· ≤ ·) (pts.map (fun p => dayOf p.timestamp)).dedup

/-- Modelled from the spec: the per-day loop of `insertDatapoints` (§4.5
step 3).  Each day is processed in order: load the bucket (empty sequence if
absent), merge, and write only when the merged content differs from the
loaded content (write-if-changed).  Returns the concatenated merged
sequences, the ordered list of issued put calls, and the final store. -/
def processDays (pts : List Datapoint) :
    List Nat → Store → List Datapoint × List (Nat × List Datapoint) × Store
  | [], store => ([], [], store)
  | d :: rest, store =>
    let loaded := (store d).getD []
    let merged := mergeDay loaded (pointsOfDay d pts)
    if merged = loaded then
      let out := processDays pts rest store
      (merged ++ out.1, out.2.1, out.2.2)
    else
      let out := processDays pts rest (updateStore store d merged)
      (merged ++ out.1, (d, merged) :: out.2.1, out.2.2)

/-- Outcome of a merge-insert call: the returned sequence (or a format
error), the ordered put calls, and the resulting store. -/
structure InsertResult where
  returned : Except String (List Datapoint)
  writes : List (Nat × List Datapoint)
  store : Store

/-- Modelled from the spec: `insertDatapoints` of the MergeInserter (§4.5,
the implementation file of the metrics model is not among the sources).
Validate all timestamps first (fail fast, before any I/O), partition by UTC
day, then process the touched days in ascending order. -/
def insertDatapoints (store : Store) (raw : List RawDatapoint) : InsertResult :=
  match validatePoints raw with
  | .error e => ⟨.error e, [], store⟩
  | .ok pts =>
    let out := processDays pts (touchedDays pts) store
    ⟨.ok out.1, out.2.1, out.2.2⟩

/-- Timestamp of the last datapoint of a bucket, or a default when empty. -/
def lastTimestampOr (b : List Datapoint) (dflt : Nat) : Nat :=
  match b.getLast? with
  | some p => p.timestamp
  | none => dflt

/-- Modelled from the spec: the anchor day of the backfill collector (§4.6
steps 1-3): today when its bucket loads (even empty), else yesterday. -/
def anchorDay (store : Store) (today : Nat) : Nat :=
  if (store today).isSome then today else today - 1

/-- Bucket content of the anchor day (empty sequence when absent). -/
def anchorBucket (store : Store) (today : Nat) : List Datapoint :=
  (store (anchorDay store today)).getD []

/-- Modelled from the spec: the resume instant of the backfill collector
(§4.6): the timestamp of the last (latest) datapoint of the anchor bucket if
any exist, else the start of the anchor day. -/
def anchorResume (store : Store) (today : Nat) : Nat :=
  lastTimestampOr (anchorBucket store today) (startOfDay (anchorDay store today))

/-- Normalize a collected datapoint to minute granularity (§4.6 step 4). -/
def normalizePoint (p : Datapoint) : Datapoint :=
  ⟨normalizeToMinute p.timestamp, p.value⟩

/-- Outcome of a collect call: the queried time range, the insert outcome,
the ordered put calls, and the resulting store. -/
structure CollectResult where
  queryBegin : Nat
  queryEnd : Nat
  inserted : Except String (List Datapoint)
  writes : List (Nat × List Datapoint)
  store : Store

/-- Modelled from the spec: `collect()` of the BackfillCollector (§4.6, the
implementation file of the metrics model is not among the sources).  Find
the anchor, query the monitoring API for `[resume, now)`, normalize the
returned timestamps to minute granularity, and feed them into
`insertDatapoints`. -/
def collect (store : Store) (today now : Nat)
    (api : Nat → Nat → List Datapoint) : CollectResult :=
  let b := anchorResume store today
  let pts := (api b now).map normalizePoint
  let out := insertDatapoints store (pts.map (fun p => ⟨some p.timestamp, p.value⟩))
  ⟨b, now, out.returned, out.writes, out.store⟩

/-- Visibility status of a metric. -/
inductive MetricStatus where
  | visible
  | hidden
deriving DecidableEq, Repr

/-- Metric metadata (§3 of the specification). -/
structure Metric where
  metricID : String
  type : String
  title : String
  unit : String
  description : String
  status : MetricStatus
  order : Int
  props : List (String × String)
deriving DecidableEq, Repr

/-- Result of a catalog lookup: the unique match, a not-found failure, or a
data-integrity failure for an ambiguous identifier. -/
inductive LookupResult where
  | found (m : Metric)
  | notFoundError
  | integrityError
deriving DecidableEq, Repr

/-- Modelled from the spec: `Metrics.lookup` of the catalog (§4.1, the
implementation file of the metrics model is not among the sources).  The
catalog store query is abstracted as a function from identifier to the list
of matches. -/
def lookup (getByID : String → List Metric) (metricID : String) : LookupResult :=
  match getByID metricID with
  | [] => .notFoundError
  | [m] => .found m
  | _ => .integrityError

/-- Error discriminator carried by a thrown collaborator error, as inspected
by the batching entry point (`error.name`). -/
inductive ErrorName where
  | notFoundError
  | otherError
deriving DecidableEq, Repr

/-- Error message pushed by the batching entry point for one failed entry. -/
def errMessage (metricID : String) : ErrorName → String
  | .notFoundError => "Error: the metric " ++ metricID ++ " not found"
  | .otherError => "Error: failed to post the metric"

/-- Outcome of processing one event entry: lookup then insert, first failure
wins (the try block of the source). -/
def entryOutcome (lookupFn : String → Except ErrorName Metric)
    (insertFn : Metric → List RawDatapoint → Except ErrorName (List Datapoint))
    (e : String × List RawDatapoint) : Except ErrorName (List Datapoint) :=
  match lookupFn e.1 with
  | .error n => .error n
  | .ok m => insertFn m e.2

/-- Loop body of the batching entry point: on success record the response
under the metric identifier, on failure push the error message. -/
def handleStep (lookupFn : String → Except ErrorName Metric)
    (insertFn : Metric → List RawDatapoint → Except ErrorName (List Datapoint))
    (acc : List (String × List Datapoint) × List String)
    (e : String × List RawDatapoint) :
    List (String × List Datapoint) × List String :=
  match entryOutcome lookupFn insertFn e with
  | .ok r => (acc.1 ++ [(e.1, r)], acc.2)
  | .error n => (acc.1, acc.2 ++ [errMessage e.1 n])

/-- The batching entry point, embedded from the source handler: iterate the
event entries in order, look the metric up and insert its datapoints,
collecting per-entry failures; answer with the error list when non-empty,
else with the full success map. -/
def handle (lookupFn : String → Except ErrorName Metric)
    (insertFn : Metric → List RawDatapoint → Except ErrorName (List Datapoint))
    (event : List (String × List RawDatapoint)) :
    Except (List String) (List (String × List Datapoint)) :=
  let out := event.foldl (handleStep lookupFn insertFn) ([], [])
  if out.2.isEmpty then .ok out.1 else .error out.2

/-- Error messages of all failing entries of an event, in entry order. -/
def errList (lookupFn : String → Except ErrorName Metric)
    (insertFn : Metric → List RawDatapoint → Except ErrorName (List Datapoint))
    (event : List (String × List RawDatapoint)) : List String :=
  event.filterMap (fun e =>
    match entryOutcome lookupFn insertFn e with
    | .error n => some (errMessage e.1 n)
    | .ok _ => none)

/-- Responses of all succeeding entries of an event, in entry order. -/
def okList (lookupFn : String → Except ErrorName Metric)
    (insertFn : Metric → List RawDatapoint → Except ErrorName (List Datapoint))
    (event : List (String × List RawDatapoint)) :
    List (String × List Datapoint) :=
  event.filterMap (fun e =>
    match entryOutcome lookupFn insertFn e with
    | .error _ => none
    | .ok r => some (e.1, r))

/-- A datapoint as seen by the chart component: the timestamp is the time
value of the parsed ISO string (string comparison between ISO instants of
one format agrees with time-value comparison), and the value is a number. -/
structure FPoint where
  timestamp : Int
  value : Rat
deriving DecidableEq, Repr

/-- Machine state of `averageDataByInterval`, embedded from the source.  The
two Date arguments and the Date loop cursor are mutable cells; every
assignment of the source body updates exactly one field.  `rest` stands for
the suffix of `data` from `currIndex` on, and `timestamps` and `values` are
the output arrays under construction. -/
structure ADState where
  startDate : Int
  endDate : Int
  currDate : Int
  rest : List FPoint
  timestamps : List Int
  values : List (Option Rat)
deriving Repr

/-- First while loop of `averageDataByInterval`: advance past the datapoints
whose timestamp is below the bound. -/
def skipBelow (bound : Int) : List FPoint → List FPoint
  | [] => []
  | p :: r => if p.timestamp < bound then skipBelow bound r else p :: r

/-- Inner while loop of one interval: sum and count the datapoints whose
timestamp is below the bound, returning the sum, the count and the rest. -/
def sumBelow (bound : Int) : List FPoint → Rat × Nat × List FPoint
  | [] => (0, 0, [])
  | p :: r =>
    if p.timestamp < bound then
      let out := sumBelow bound r
      (p.value + out.1, out.2.1 + 1, out.2.2)
    else
      (0, 0, p :: r)

/-- One iteration of the outer while loop of `averageDataByInterval`, taken
when `currDate <= endDate` holds: push a copy of the cursor, advance the
cursor by the increment function, clamp it to one past the end bound,
average the datapoints that fall inside the interval, and push the average
(or null when the interval holds no datapoint). -/
def adStep (inc : Int → Int) (st : ADState) : ADState :=
  let c1 := inc st.currDate
  let c2 := if st.endDate < c1 then st.endDate + 1 else c1
  let out := sumBelow c2 st.rest
  { st with
    currDate := c2
    rest := out.2.2
    timestamps := st.timestamps ++ [st.currDate]
    values := st.values ++
      [if out.2.1 ≠ 0 then some (out.1 / (out.2.1 : Rat)) else none] }

/-- Outer while loop of `averageDataByInterval`.  The increment function is
arbitrary, so the source loop need not terminate; the embedding runs it on
explicit fuel. -/
def adLoop (inc : Int → Int) : Nat → ADState → ADState
  | 0, st => st
  | fuel + 1, st =>
    if st.currDate ≤ st.endDate then adLoop inc fuel (adStep inc st) else st

/-- The chart averaging helper, embedded from the source
`averageDataByInterval(data, startDate, endDate, incrementTimestamp)`.  The
cursor starts as a fresh copy of the start date; the initial skip drops the
datapoints before it; then the outer loop runs.  The whole final machine
state is returned, so that the fate of every mutable cell is observable. -/
def averageDataByInterval (data : List FPoint) (startDate endDate : Int)
    (inc : Int → Int) (fuel : Nat) : ADState :=
  adLoop inc fuel
    { startDate := startDate
      endDate := endDate
      currDate := startDate
      rest := skipBelow startDate data
      timestamps := []
      values := [] }

/-! ### Generic facts about the merge engine -/

theorem adStep_startDate (inc : Int → Int) (st : ADState) :
    (adStep inc st).startDate = st.startDate := rfl

theorem adStep_endDate (inc : Int → Int) (st : ADState) :
    (adStep inc st).endDate = st.endDate := rfl

theorem adLoop_startDate (inc : Int → Int) :
    ∀ (fuel : Nat) (st : ADState), (adLoop inc fuel st).startDate = st.startDate
  | 0, _ => rfl
  | fuel + 1, st => by
    unfold adLoop
    by_cases h : st.currDate ≤ st.endDate
    · rw [if_pos h, adLoop_startDate inc fuel, adStep_startDate]
    · rw [if_neg h]

theorem adLoop_endDate (inc : Int → Int) :
    ∀ (fuel : Nat) (st : ADState), (adLoop inc fuel st).endDate = st.endDate
  | 0, _ => rfl
  | fuel + 1, st => by
    unfold adLoop
    by_cases h : st.currDate ≤ st.endDate
    · rw [if_pos h, adLoop_endDate inc fuel, adStep_endDate]
    · rw [if_neg h]

/-- C10: `averageDataByInterval` never mutates its `startDate` and `endDate`
arguments: for every input data sequence, interval bounds, increment
function and fuel, the two bound cells hold the same time value in the final
machine state as they held initially (the loop iterates on a copy). -/
theorem averageDataByInterval_preserves_bounds
    (data : List FPoint) (startDate endDate : Int) (inc : Int → Int) (fuel : Nat) :
    (averageDataByInterval data startDate endDate inc fuel).startDate = startDate ∧
    (averageDataByInterval data startDate endDate inc fuel).endDate = endDate := by
  unfold averageDataByInterval
  exact ⟨adLoop_startDate inc fuel _, adLoop_endDate inc fuel _⟩

theorem validatePoints_error_of_invalid :
    ∀ (raw : List RawDatapoint), (∃ p ∈ raw, p.timestamp = none) →
      validatePoints raw = .error "invalid timestamp"
  | [], h => by simp at h
  | p :: rest, h => by
    unfold validatePoints
    match hp : p.timestamp with
    | none => rfl
    | some t =>
      obtain ⟨q, hq, hqn⟩ := h
      rcases List.mem_cons.mp hq with rfl | hq2
      · rw [hp] at hqn; cases hqn
      · rw [validatePoints_error_of_invalid rest ⟨q, hq2, hqn⟩]

/-- C5: an `insertDatapoints` call holding at least one input datapoint
whose timestamp does not parse as a UTC instant fails with a format error,
issues no object-store write, and leaves the store unchanged. -/
theorem insertDatapoints_invalid_fails (store : Store) (raw : List RawDatapoint)
    (h : ∃ p ∈ raw, p.timestamp = none) :
    (insertDatapoints store raw).returned = .error "invalid timestamp" ∧
    (insertDatapoints store raw).writes = [] ∧
    (insertDatapoints store raw).store = store := by
  unfold insertDatapoints
  rw [validatePoints_error_of_invalid raw h]
  exact ⟨rfl, rfl, rfl⟩

/-- Witness for C5 at scenario 5 of the specification: a single unparseable
timestamp makes the whole call fail with no write on the empty store. -/
theorem insertDatapoints_invalid_fails_witness :
    (insertDatapoints (fun _ => none) [⟨none, 1⟩]).returned = .error "invalid timestamp" ∧
    (insertDatapoints (fun _ => none) [⟨none, 1⟩]).writes = [] ∧
    (insertDatapoints (fun _ => none) [⟨none, 1⟩]).store = (fun _ => none) :=
  insertDatapoints_invalid_fails (fun _ => none) [⟨none, 1⟩]
    ⟨⟨none, 1⟩, List.mem_singleton.mpr rfl, rfl⟩

/-- C8: catalog lookup by identifier succeeds with the single match when the
store yields exactly one, fails as not-found on zero matches, and fails as a
data-integrity error on two or more matches. -/
theorem lookup_cardinality (getByID : String → List Metric) (metricID : String) :
    (getByID metricID = [] → lookup getByID metricID = .notFoundError) ∧
    (∀ m, getByID metricID = [m] → lookup getByID metricID = .found m) ∧
    (2 ≤ (getByID metricID).length → lookup getByID metricID = .integrityError) := by
  refine ⟨fun h => ?_, fun m h => ?_, fun h => ?_⟩
  · rw [lookup, h]
  · rw [lookup, h]
  · rw [lookup]
    match hl : getByID metricID with
    | [] => rw [hl] at h; simp at h
    | [m] => rw [hl] at h; simp at h
    | a :: b :: t => rfl

/-- A concrete metric used by witnesses. -/
def metricW : Metric := ⟨"m1", "cloudwatch", "metric one", "", "", .visible, 1, []⟩

/-- Witness for C8: the three lookup cardinalities at concrete catalog
stores. -/
theorem lookup_cardinality_witness :
    lookup (fun _ => []) "m1" = .notFoundError ∧
    lookup (fun _ => [metricW]) "m1" = .found metricW ∧
    lookup (fun _ => [metricW, metricW]) "m1" = .integrityError :=
  ⟨(lookup_cardinality (fun _ => []) "m1").1 rfl,
   (lookup_cardinality (fun _ => [metricW]) "m1").2.1 metricW rfl,
   (lookup_cardinality (fun _ => [metricW, metricW]) "m1").2.2 (by decide)⟩

theorem handle_foldl (lookupFn : String → Except ErrorName Metric)
    (insertFn : Metric → List RawDatapoint → Except ErrorName (List Datapoint)) :
    ∀ (event : List (String × List RawDatapoint))
      (acc : List (String × List Datapoint) × List String),
      event.foldl (handleStep lookupFn insertFn) acc =
        (acc.1 ++ okList lookupFn insertFn event, acc.2 ++ errList lookupFn insertFn event)
  | [], acc => by simp [okList, errList]
  | e :: rest, acc => by
    rw [List.foldl_cons, handle_foldl lookupFn insertFn rest]
    unfold handleStep okList errList
    rw [List.filterMap_cons, List.filterMap_cons]
    match h : entryOutcome lookupFn insertFn e with
    | .ok r => simp
    | .error n => simp

theorem okList_of_no_err (lookupFn : String → Except ErrorName Metric)
    (insertFn : Metric → List RawDatapoint → Except ErrorName (List Datapoint)) :
    ∀ (event : List (String × List RawDatapoint)),
      errList lookupFn insertFn event = [] →
      okList lookupFn insertFn event =
        event.map (fun e => (e.1, (entryOutcome lookupFn insertFn e).toOption.getD []))
  | [], _ => rfl
  | e :: rest, h => by
    match ho : entryOutcome lookupFn insertFn e with
    | .error n => simp [errList, List.filterMap_cons, ho] at h
    | .ok r =>
      have h2 : errList lookupFn insertFn rest = [] := by
        simpa [errList, List.filterMap_cons, ho] using h
      simp only [okList, List.filterMap_cons, ho, List.map_cons, Except.toOption,
        Option.getD_some]
      exact congrArg _ (okList_of_no_err lookupFn insertFn rest h2)

/-- C9: the batching entry point processes every entry even when some
entries fail; its answer is the complete error list over all entries when at
least one entry failed, and the complete per-metric success map over all
entries when none failed, never a mixed partial result. -/
theorem handle_all_or_nothing (lookupFn : String → Except ErrorName Metric)
    (insertFn : Metric → List RawDatapoint → Except ErrorName (List Datapoint))
    (event : List (String × List RawDatapoint)) :
    (errList lookupFn insertFn event = [] →
      handle lookupFn insertFn event =
        .ok (event.map (fun e => (e.1, (entryOutcome lookupFn insertFn e).toOption.getD [])))) ∧
    (errList lookupFn insertFn event ≠ [] →
      handle lookupFn insertFn event = .error (errList lookupFn insertFn event)) := by
  unfold handle
  rw [handle_foldl lookupFn insertFn event ([], [])]
  simp only [List.nil_append]
  constructor
  · intro h
    rw [h]
    simp [okList_of_no_err lookupFn insertFn event h]
  · intro h
    rw [if_neg (by simpa [List.isEmpty_iff] using h)]

/-- Concrete lookup collaborator for the C9 witness: only metric `a`
exists. -/
def lookupFnW : String → Except ErrorName Metric :=
  fun metricID => if metricID = "a" then .ok metricW else .error .notFoundError

/-- Concrete insert collaborator for the C9 witness: always succeeds with
one datapoint. -/
def insertFnW : Metric → List RawDatapoint → Except ErrorName (List Datapoint) :=
  fun _ _ => .ok [⟨0, 1⟩]

/-- Witness for C9: with one unknown metric among two entries the handler
answers with the complete error list; with every entry succeeding it answers
with the complete success map. -/
theorem handle_all_or_nothing_witness :
    handle lookupFnW insertFnW [("a", []), ("b", [])] =
      .error ["Error: the metric b not found"] ∧
    handle lookupFnW insertFnW [("a", []), ("c", [])] =
      .error ["Error: the metric c not found"] ∧
    handle lookupFnW insertFnW [("a", [])] = .ok [("a", [⟨0, 1⟩])] := by
  refine ⟨?_, ?_, ?_⟩
  · exact ((handle_all_or_nothing lookupFnW insertFnW [("a", []), ("b", [])]).2
      (by decide)).trans (congrArg Except.error (by decide))
  · exact ((handle_all_or_nothing lookupFnW insertFnW [("a", []), ("c", [])]).2
      (by decide)).trans (congrArg Except.error (by decide))
  · exact ((handle_all_or_nothing lookupFnW insertFnW [("a", [])]).1
      (by decide)).trans (congrArg Except.ok (by decide))

theorem ts_replaceOrInsert_of_mem_ts (b : List Datapoint) (p : Datapoint)
    (h : p.timestamp ∈ b.map Datapoint.timestamp) :
    (replaceOrInsert b p).map Datapoint.timestamp = b.map Datapoint.timestamp := by
  unfold replaceOrInsert
  obtain ⟨q, hq, hqt⟩ := List.mem_map.mp h
  rw [if_pos (List.any_eq_true.mpr ⟨q, hq, by simp [hqt]⟩), List.map_map]
  apply List.map_congr_left
  intro x _
  by_cases hx : x.timestamp = p.timestamp <;> simp [Function.comp, hx]

theorem ts_replaceOrInsert_of_not_mem_ts (b : List Datapoint) (p : Datapoint)
    (h : p.timestamp ∉ b.map Datapoint.timestamp) :
    (replaceOrInsert b p).map Datapoint.timestamp =
      b.map Datapoint.timestamp ++ [p.timestamp] := by
  unfold replaceOrInsert
  have hany : ¬b.any (fun q => q.timestamp == p.timestamp) = true := by
    intro hany
    obtain ⟨q, hq, hqt⟩ := List.any_eq_true.mp hany
    exact h (List.mem_map.mpr ⟨q, hq, by simpa using hqt⟩)
  rw [if_neg hany, List.map_append]
  rfl

theorem nodup_ts_replaceOrInsert (b : List Datapoint) (p : Datapoint)
    (h : (b.map Datapoint.timestamp).Nodup) :
    ((replaceOrInsert b p).map Datapoint.timestamp).Nodup := by
  by_cases hmem : p.timestamp ∈ b.map Datapoint.timestamp
  · rw [ts_replaceOrInsert_of_mem_ts b p hmem]; exact h
  · rw [ts_replaceOrInsert_of_not_mem_ts b p hmem]
    exact List.Nodup.append h (List.nodup_singleton _)
      (fun a ha hb => hmem ((List.mem_singleton.mp hb) ▸ ha))

theorem nodup_ts_foldl_replaceOrInsert :
    ∀ (news b : List Datapoint), (b.map Datapoint.timestamp).Nodup →
      ((news.foldl replaceOrInsert b).map Datapoint.timestamp).Nodup
  | [], _, h => h
  | p :: rest, b, h =>
    nodup_ts_foldl_replaceOrInsert rest (replaceOrInsert b p)
      (nodup_ts_replaceOrInsert b p h)

theorem nodup_ts_of_pairwise_lt (l : List Datapoint) (h : List.Pairwise tsLT l) :
    (l.map Datapoint.timestamp).Nodup :=
  List.pairwise_map.mpr (h.imp fun hlt => Nat.ne_of_lt hlt)

theorem pairwise_lt_of_sorted_nodup (l : List Datapoint)
    (hs : List.Pairwise tsLE l) (hn : (l.map Datapoint.timestamp).Nodup) :
    List.Pairwise tsLT l := by
  have hne : List.Pairwise (fun p q : Datapoint => p.timestamp ≠ q.timestamp) l :=
    List.pairwise_map.mp hn
  exact (hs.and hne).imp fun h => Nat.lt_of_le_of_ne h.1 h.2

theorem mergeDay_pairwise_lt (b news : List Datapoint)
    (h : (b.map Datapoint.timestamp).Nodup) :
    List.Pairwise tsLT (mergeDay b news) := by
  unfold mergeDay sortByTimestamp
  apply pairwise_lt_of_sorted_nodup
  · exact List.sorted_insertionSort tsLE _
  · exact (((List.perm_insertionSort tsLE _).map Datapoint.timestamp).nodup_iff).mpr
      (nodup_ts_foldl_replaceOrInsert news b h)

/-- The documented day-bucket invariant (§3): every present bucket is
strictly ascending by timestamp (hence unique by timestamp) and holds only
datapoints of its own UTC calendar day. -/
def StoreInv (store : Store) : Prop :=
  ∀ d b, store d = some b →
    List.Pairwise tsLT b ∧ ∀ p ∈ b, dayOf p.timestamp = d

/-- Weak store invariant: every present bucket is unique by timestamp. -/
def NodupInv (store : Store) : Prop :=
  ∀ d b, store d = some b → (b.map Datapoint.timestamp).Nodup

theorem nodupInv_of_storeInv (store : Store) (h : StoreInv store) : NodupInv store :=
  fun d b hb => nodup_ts_of_pairwise_lt b (h d b hb).1

theorem nodupInv_updateStore (store : Store) (d : Nat) (b : List Datapoint)
    (h : NodupInv store) (hb : (b.map Datapoint.timestamp).Nodup) :
    NodupInv (updateStore store d b) := by
  intro d2 b2 hb2
  unfold updateStore at hb2
  by_cases hd : d2 = d
  · rw [if_pos hd] at hb2
    cases hb2
    exact hb
  · rw [if_neg hd] at hb2
    exact h d2 b2 hb2

theorem nodupInv_getD (store : Store) (d : Nat) (h : NodupInv store) :
    (((store d).getD []).map Datapoint.timestamp).Nodup := by
  match hs : store d with
  | none => simp
  | some b => simpa using h d b hs

theorem processDays_writes_pairwise (pts : List Datapoint) :
    ∀ (ds : List Nat) (store : Store), NodupInv store →
      ∀ w ∈ (processDays pts ds store).2.1, List.Pairwise tsLT w.2
  | [], _, _, w, hw => by simp [processDays] at hw
  | d :: rest, store, hinv, w, hw => by
    rw [processDays] at hw
    have hmerged : List.Pairwise tsLT (mergeDay ((store d).getD []) (pointsOfDay d pts)) :=
      mergeDay_pairwise_lt _ _ (nodupInv_getD store d hinv)
    by_cases hc : mergeDay ((store d).getD []) (pointsOfDay d pts) = (store d).getD []
    · rw [if_pos hc] at hw
      exact processDays_writes_pairwise pts rest store hinv w hw
    · rw [if_neg hc] at hw
      rcases List.mem_cons.mp hw with rfl | hw2
      · exact hmerged
      · exact processDays_writes_pairwise pts rest
          (updateStore store d (mergeDay ((store d).getD []) (pointsOfDay d pts)))
          (nodupInv_updateStore store d _ hinv (nodup_ts_of_pairwise_lt _ hmerged))
          w hw2

/-- C1: when the store satisfies the documented bucket invariant and every
input timestamp is valid, every datapoint sequence that `insertDatapoints`
writes to a day bucket is strictly ascending by timestamp and holds no two
entries with equal timestamps. -/
theorem insertDatapoints_writes_sorted (store : Store) (raw : List RawDatapoint)
    (pts : List Datapoint) (hinv : StoreInv store)
    (hok : validatePoints raw = .ok pts) :
    ∀ w ∈ (insertDatapoints store raw).writes,
      List.Pairwise tsLT w.2 ∧ (w.2.map Datapoint.timestamp).Nodup := by
  intro w hw
  unfold insertDatapoints at hw
  rw [hok] at hw
  have h := processDays_writes_pairwise pts (touchedDays pts) store
    (nodupInv_of_storeInv store hinv) w hw
  exact ⟨h, nodup_ts_of_pairwise_lt _ h⟩

/-- Store of the merge witnesses: day 0 holds one datapoint at 01:00 UTC. -/
def storeW : Store := fun d => if d = 0 then some [⟨3600000, 1⟩] else none

theorem storeW_inv : StoreInv storeW := by
  intro d b hb
  unfold storeW at hb
  by_cases hd : d = 0
  · rw [if_pos hd] at hb
    cases hb
    subst hd
    refine ⟨by decide, ?_⟩
    intro p hp
    rw [List.mem_singleton] at hp
    subst hp
    decide
  · rw [if_neg hd] at hb
    cases hb

/-- Witness for C1 at scenario 1 of the specification: inserting a midnight
datapoint before the existing 01:00 one produces one strictly ascending
write. -/
theorem insertDatapoints_writes_sorted_witness :
    List.Pairwise tsLT [⟨0, 0⟩, ⟨3600000, 1⟩] ∧
    (([⟨0, 0⟩, (⟨3600000, 1⟩ : Datapoint)].map Datapoint.timestamp)).Nodup :=
  insertDatapoints_writes_sorted storeW [⟨some 0, 0⟩] [⟨0, 0⟩] storeW_inv rfl
    (0, [⟨0, 0⟩, ⟨3600000, 1⟩]) (by decide)

theorem processDays_congr (pts : List Datapoint) :
    ∀ (ds : List Nat) (s1 s2 : Store), (∀ d ∈ ds, s1 d = s2 d) →
      (processDays pts ds s1).1 = (processDays pts ds s2).1 ∧
      (processDays pts ds s1).2.1 = (processDays pts ds s2).2.1
  | [], _, _, _ => ⟨rfl, rfl⟩
  | d :: rest, s1, s2, h => by
    have hd : s1 d = s2 d := h d (List.mem_cons_self d rest)
    rw [processDays, processDays, hd]
    by_cases hc : mergeDay ((s2 d).getD []) (pointsOfDay d pts) = (s2 d).getD []
    · obtain ⟨h1, h2⟩ := processDays_congr pts rest s1 s2
        (fun d2 hd2 => h d2 (List.mem_cons_of_mem _ hd2))
      rw [if_pos hc, if_pos hc]
      exact ⟨congrArg (fun x => mergeDay ((s2 d).getD []) (pointsOfDay d pts) ++ x) h1, h2⟩
    · obtain ⟨h1, h2⟩ := processDays_congr pts rest
        (updateStore s1 d (mergeDay ((s2 d).getD []) (pointsOfDay d pts)))
        (updateStore s2 d (mergeDay ((s2 d).getD []) (pointsOfDay d pts)))
        (fun d2 hd2 => by
          unfold updateStore
          by_cases hdd : d2 = d
          · rw [if_pos hdd, if_pos hdd]
          · rw [if_neg hdd, if_neg hdd]
            exact h d2 (List.mem_cons_of_mem _ hd2))
      rw [if_neg hc, if_neg hc]
      exact ⟨congrArg (fun x => mergeDay ((s2 d).getD []) (pointsOfDay d pts) ++ x) h1,
        congrArg (List.cons (d, mergeDay ((s2 d).getD []) (pointsOfDay d pts))) h2⟩

theorem processDays_spec (pts : List Datapoint) :
    ∀ (ds : List Nat) (store : Store), ds.Nodup →
      (processDays pts ds store).1 =
        (ds.map (fun d => mergeDay ((store d).getD []) (pointsOfDay d pts))).flatten ∧
      (processDays pts ds store).2.1 =
        ds.filterMap (fun d =>
          if mergeDay ((store d).getD []) (pointsOfDay d pts) = (store d).getD [] then none
          else some (d, mergeDay ((store d).getD []) (pointsOfDay d pts)))
  | [], _, _ => ⟨rfl, rfl⟩
  | d :: rest, store, hnd => by
    have hdrest : d ∉ rest := (List.nodup_cons.mp hnd).1
    obtain ⟨h1, h2⟩ := processDays_spec pts rest store (List.nodup_cons.mp hnd).2
    rw [processDays, List.map_cons, List.flatten_cons, List.filterMap_cons]
    by_cases hc : mergeDay ((store d).getD []) (pointsOfDay d pts) = (store d).getD []
    · rw [if_pos hc]
      constructor
      · exact congrArg (fun x => mergeDay ((store d).getD []) (pointsOfDay d pts) ++ x) h1
      · rw [if_pos hc]
        exact h2
    · obtain ⟨hc1, hc2⟩ := processDays_congr pts rest
        (updateStore store d (mergeDay ((store d).getD []) (pointsOfDay d pts))) store
        (fun d2 hd2 => by
          unfold updateStore
          rw [if_neg (fun (hdd : d2 = d) => hdrest (hdd ▸ hd2))])
      rw [if_neg hc]
      constructor
      · exact congrArg (fun x => mergeDay ((store d).getD []) (pointsOfDay d pts) ++ x)
          (hc1.trans h1)
      · rw [if_neg hc]
        exact congrArg (List.cons (d, mergeDay ((store d).getD []) (pointsOfDay d pts)))
          (hc2.trans h2)

theorem touchedDays_nodup (pts : List Datapoint) : (touchedDays pts).Nodup :=
  ((List.perm_insertionSort _ _).nodup_iff).mpr (List.nodup_dedup _)

theorem touchedDays_sorted (pts : List Datapoint) :
    List.Pairwise (fun a b : Nat => a < b) (touchedDays pts) := by
  have hs : List.Sorted (· ≤ ·) (touchedDays pts) := List.sorted_insertionSort _ _
  have hne : (touchedDays pts).Pairwise (· ≠ ·) := touchedDays_nodup pts
  exact (hs.and hne).imp fun h => Nat.lt_of_le_of_ne h.1 h.2

/-- C2: a valid `insertDatapoints` call returns the concatenation, across
the touched days in ascending order, of each day's full merged sequence
(existing points of the original store plus new points), not merely the
newly inserted items. -/
theorem insertDatapoints_returns_merged (store : Store) (raw : List RawDatapoint)
    (pts : List Datapoint) (hok : validatePoints raw = .ok pts) :
    (insertDatapoints store raw).returned =
      .ok (((touchedDays pts).map
        (fun d => mergeDay ((store d).getD []) (pointsOfDay d pts))).flatten) := by
  unfold insertDatapoints
  rw [hok]
  exact congrArg Except.ok
    (processDays_spec pts (touchedDays pts) store (touchedDays_nodup pts)).1

/-- Witness for C2 at scenario 1 of the specification: the returned sequence
holds the pre-existing 01:00 datapoint besides the newly inserted midnight
one. -/
theorem insertDatapoints_returns_merged_witness :
    (insertDatapoints storeW [⟨some 0, 0⟩]).returned =
      .ok [⟨0, 0⟩, ⟨3600000, 1⟩] :=
  (insertDatapoints_returns_merged storeW [⟨some 0, 0⟩] [⟨0, 0⟩] rfl).trans
    (congrArg Except.ok (by decide))

/-- Store of the C6 counterexample: day 0 already holds the exact datapoint
being inserted. -/
def c6store : Store := fun d => if d = 0 then some [⟨0, 1⟩] else none

/-- Counterexample to C6 as stated: a valid call spanning one distinct UTC
day issues zero write calls, because the merged content equals the loaded
content and the write-if-changed guard of the specification suppresses the
write. -/
theorem insertDatapoints_writeCount_counterexample :
    validatePoints [(⟨some 0, 1⟩ : RawDatapoint)] = .ok [⟨0, 1⟩] ∧
    (touchedDays [(⟨0, 1⟩ : Datapoint)]).length = 1 ∧
    (insertDatapoints c6store [⟨some 0, 1⟩]).writes = [] ∧
    (insertDatapoints c6store [⟨some 0, 1⟩]).writes.length ≠
      (touchedDays [(⟨0, 1⟩ : Datapoint)]).length := by
  refine ⟨rfl, rfl, by decide, by decide⟩

theorem map_fst_filterMap_if_sublist (g : Nat → List Datapoint)
    (P : Nat → Prop) [DecidablePred P] :
    ∀ l : List Nat,
      ((l.filterMap (fun d => if P d then none else some (d, g d))).map
        Prod.fst).Sublist l
  | [] => List.Sublist.refl []
  | d :: rest => by
    rw [List.filterMap_cons]
    by_cases h : P d
    · rw [if_pos h]
      exact (map_fst_filterMap_if_sublist g P rest).cons d
    · rw [if_neg h, List.map_cons]
      exact (map_fst_filterMap_if_sublist g P rest).cons₂ d

/-- C6 as amended: a valid `insertDatapoints` call issues one write per
touched day whose merged old-plus-new content differs from the loaded
content (the write-if-changed guard skips the others), each write holding
that day's full merged sequence, and the writes are issued in strictly
ascending day order. -/
theorem insertDatapoints_writes_spec (store : Store) (raw : List RawDatapoint)
    (pts : List Datapoint) (hok : validatePoints raw = .ok pts) :
    (insertDatapoints store raw).writes =
      (touchedDays pts).filterMap (fun d =>
        if mergeDay ((store d).getD []) (pointsOfDay d pts) = (store d).getD [] then none
        else some (d, mergeDay ((store d).getD []) (pointsOfDay d pts))) ∧
    List.Pairwise (fun a b : Nat => a < b)
      ((insertDatapoints store raw).writes.map Prod.fst) := by
  have hmain : (insertDatapoints store raw).writes =
      (touchedDays pts).filterMap (fun d =>
        if mergeDay ((store d).getD []) (pointsOfDay d pts) = (store d).getD [] then none
        else some (d, mergeDay ((store d).getD []) (pointsOfDay d pts))) := by
    unfold insertDatapoints
    rw [hok]
    exact (processDays_spec pts (touchedDays pts) store (touchedDays_nodup pts)).2
  refine ⟨hmain, ?_⟩
  rw [hmain]
  exact (touchedDays_sorted pts).sublist
    (map_fst_filterMap_if_sublist
      (fun d => mergeDay ((store d).getD []) (pointsOfDay d pts))
      (fun d => mergeDay ((store d).getD []) (pointsOfDay d pts) = (store d).getD [])
      (touchedDays pts))

/-- Witness for C6 as amended: inserting a fresh midnight datapoint into the
01:00 bucket issues exactly the one changed-day write, in day order. -/
theorem insertDatapoints_writes_spec_witness :
    (insertDatapoints storeW [⟨some 0, 0⟩]).writes = [(0, [⟨0, 0⟩, ⟨3600000, 1⟩])] ∧
    List.Pairwise (fun a b : Nat => a < b)
      ((insertDatapoints storeW [⟨some 0, 0⟩]).writes.map Prod.fst) := by
  obtain ⟨h1, h2⟩ := insertDatapoints_writes_spec storeW [⟨some 0, 0⟩] [⟨0, 0⟩] rfl
  exact ⟨h1.trans (by decide), h2⟩

theorem insertDatapoints_returned_ok (store : Store) (raw : List RawDatapoint)
    (pts : List Datapoint) (hok : validatePoints raw = .ok pts) :
    (insertDatapoints store raw).returned =
      .ok (processDays pts (touchedDays pts) store).1 := by
  unfold insertDatapoints
  rw [hok]

theorem insertDatapoints_store_ok (store : Store) (raw : List RawDatapoint)
    (pts : List Datapoint) (hok : validatePoints raw = .ok pts) :
    (insertDatapoints store raw).store =
      (processDays pts (touchedDays pts) store).2.2 := by
  unfold insertDatapoints
  rw [hok]

theorem replaceOrInsert_of_exists (b : List Datapoint) (p : Datapoint)
    (h : ∃ q ∈ b, q.timestamp = p.timestamp) :
    replaceOrInsert b p =
      b.map (fun q => if q.timestamp == p.timestamp then ⟨q.timestamp, p.value⟩ else q) := by
  unfold replaceOrInsert
  obtain ⟨q, hq, hqt⟩ := h
  rw [if_pos (List.any_eq_true.mpr ⟨q, hq, by simp [hqt]⟩)]

/-- C7: inserting a datapoint whose timestamp equals the timestamp of an
entry of the existing day bucket — sameness being exactly timestamp
equality — yields a stored bucket of unchanged length in which the matching
entry's value is replaced by the new value and every other entry survives. -/
theorem insertDatapoints_same_timestamp_replaces (store : Store) (t : Nat) (v : Int)
    (b : List Datapoint) (hb : store (dayOf t) = some b)
    (hex : ∃ q ∈ b, q.timestamp = t) :
    ∃ c, (insertDatapoints store [⟨some t, v⟩]).returned = .ok c ∧
      (insertDatapoints store [⟨some t, v⟩]).store (dayOf t) = some c ∧
      c.length = b.length ∧ (⟨t, v⟩ : Datapoint) ∈ c ∧
      ∀ q ∈ b, q.timestamp ≠ t → q ∈ c := by
  have htd : touchedDays [(⟨t, v⟩ : Datapoint)] = [dayOf t] := rfl
  have hpod : pointsOfDay (dayOf t) [(⟨t, v⟩ : Datapoint)] = [⟨t, v⟩] := by
    simp [pointsOfDay]
  have hload : (store (dayOf t)).getD [] = b := by rw [hb]; rfl
  have hfold :
      mergeDay b [(⟨t, v⟩ : Datapoint)] =
        sortByTimestamp (replaceOrInsert b ⟨t, v⟩) := rfl
  have hmapped : replaceOrInsert b ⟨t, v⟩ =
      b.map (fun q => if q.timestamp == t then ⟨q.timestamp, v⟩ else q) :=
    replaceOrInsert_of_exists b ⟨t, v⟩ hex
  have hperm : (mergeDay b [(⟨t, v⟩ : Datapoint)]).Perm (replaceOrInsert b ⟨t, v⟩) := by
    rw [hfold]
    exact List.perm_insertionSort tsLE _
  have hlen : (mergeDay b [(⟨t, v⟩ : Datapoint)]).length = b.length := by
    rw [hperm.length_eq, hmapped, List.length_map]
  have hmem : (⟨t, v⟩ : Datapoint) ∈ mergeDay b [(⟨t, v⟩ : Datapoint)] := by
    rw [hperm.mem_iff, hmapped]
    obtain ⟨q, hq, hqt⟩ := hex
    exact List.mem_map.mpr ⟨q, hq, by simp [hqt]⟩
  have hold : ∀ q ∈ b, q.timestamp ≠ t → q ∈ mergeDay b [(⟨t, v⟩ : Datapoint)] := by
    intro q hq hne
    rw [hperm.mem_iff, hmapped]
    exact List.mem_map.mpr ⟨q, hq, by simp [hne]⟩
  refine ⟨mergeDay b [(⟨t, v⟩ : Datapoint)], ?_, ?_, hlen, hmem, hold⟩
  · rw [insertDatapoints_returned_ok store [⟨some t, v⟩] [⟨t, v⟩] rfl, htd,
      processDays, hload, hpod]
    by_cases hcase : mergeDay b [(⟨t, v⟩ : Datapoint)] = b
    · rw [if_pos hcase]
      exact congrArg Except.ok (List.append_nil _)
    · rw [if_neg hcase]
      exact congrArg Except.ok (List.append_nil _)
  · rw [insertDatapoints_store_ok store [⟨some t, v⟩] [⟨t, v⟩] rfl, htd,
      processDays, hload, hpod]
    by_cases hcase : mergeDay b [(⟨t, v⟩ : Datapoint)] = b
    · rw [if_pos hcase]
      show store (dayOf t) = _
      rw [hb, hcase]
    · rw [if_neg hcase]
      show updateStore store (dayOf t) _ (dayOf t) = _
      unfold updateStore
      rw [if_pos rfl]

/-- Witness for C7 at scenario 3 of the specification: re-inserting the
01:00 timestamp with value 2 keeps the bucket length 1 and stores the new
value. -/
theorem insertDatapoints_same_timestamp_replaces_witness :
    ∃ c, (insertDatapoints storeW [⟨some 3600000, 2⟩]).returned = .ok c ∧
      (insertDatapoints storeW [⟨some 3600000, 2⟩]).store (dayOf 3600000) = some c ∧
      c.length = [(⟨3600000, 1⟩ : Datapoint)].length ∧
      (⟨3600000, 2⟩ : Datapoint) ∈ c ∧
      ∀ q ∈ [(⟨3600000, 1⟩ : Datapoint)], q.timestamp ≠ 3600000 → q ∈ c :=
  insertDatapoints_same_timestamp_replaces storeW 3600000 2 [⟨3600000, 1⟩]
    (by decide) ⟨⟨3600000, 1⟩, List.mem_singleton.mpr rfl, rfl⟩

theorem insertDatapoints_writes_ok (store : Store) (raw : List RawDatapoint)
    (pts : List Datapoint) (hok : validatePoints raw = .ok pts) :
    (insertDatapoints store raw).writes =
      (processDays pts (touchedDays pts) store).2.1 := by
  unfold insertDatapoints
  rw [hok]

theorem validatePoints_roundtrip :
    ∀ pts : List Datapoint,
      validatePoints (pts.map (fun p => ⟨some p.timestamp, p.value⟩)) = .ok pts
  | [] => rfl
  | p :: rest => by
    rw [List.map_cons, validatePoints, validatePoints_roundtrip rest]

theorem replaceOrInsert_self (b : List Datapoint) (p : Datapoint)
    (hnd : (b.map Datapoint.timestamp).Nodup) (hp : p ∈ b) :
    replaceOrInsert b p = b := by
  rw [replaceOrInsert_of_exists b p ⟨p, hp, rfl⟩]
  have hall : ∀ q ∈ b,
      (if q.timestamp == p.timestamp then (⟨q.timestamp, p.value⟩ : Datapoint) else q) = q := by
    intro q hq
    by_cases hqt : q.timestamp = p.timestamp
    · have hqp : q = p := List.inj_on_of_nodup_map hnd hq hp hqt
      rw [if_pos (by simp [hqt]), hqt, hqp]
    · rw [if_neg (by simp [hqt])]
  rw [List.map_congr_left hall]
  exact List.map_id b

theorem foldl_replaceOrInsert_self :
    ∀ (news b : List Datapoint), (b.map Datapoint.timestamp).Nodup →
      (∀ p ∈ news, p ∈ b) → news.foldl replaceOrInsert b = b
  | [], _, _, _ => rfl
  | p :: rest, b, hnd, hsub => by
    rw [List.foldl_cons, replaceOrInsert_self b p hnd (hsub p (List.mem_cons_self _ _))]
    exact foldl_replaceOrInsert_self rest b hnd
      (fun q hq => hsub q (List.mem_cons_of_mem _ hq))

theorem mergeDay_self (b news : List Datapoint) (hsorted : List.Pairwise tsLT b)
    (hsub : ∀ p ∈ news, p ∈ b) : mergeDay b news = b := by
  unfold mergeDay sortByTimestamp
  rw [foldl_replaceOrInsert_self news b (nodup_ts_of_pairwise_lt b hsorted) hsub]
  exact List.Sorted.insertionSort_eq
    (show List.Sorted tsLE b from hsorted.imp fun h => Nat.le_of_lt h)

theorem dedup_all_eq :
    ∀ (l : List Nat) (a : Nat), l ≠ [] → (∀ x ∈ l, x = a) → l.dedup = [a]
  | [], _, h, _ => absurd rfl h
  | x :: rest, a, _, hall => by
    have hx : x = a := hall x (List.mem_cons_self _ _)
    subst hx
    by_cases hr : rest = []
    · subst hr
      rfl
    · have hmem : x ∈ rest := by
        match rest, hr with
        | y :: t, _ =>
          have hy : y = x := hall y (List.mem_cons_of_mem _ (List.mem_cons_self y t))
          rw [← hy]
          exact List.mem_cons_self y t
      rw [List.dedup_cons_of_mem hmem]
      exact dedup_all_eq rest x hr (fun y hy => hall y (List.mem_cons_of_mem _ hy))

theorem touchedDays_single_day (pts : List Datapoint) (a : Nat) (hne : pts ≠ [])
    (hall : ∀ p ∈ pts, dayOf p.timestamp = a) : touchedDays pts = [a] := by
  unfold touchedDays
  rw [dedup_all_eq (pts.map fun p => dayOf p.timestamp) a
    (fun h => hne (List.map_eq_nil_iff.mp h))
    (fun x hx => by
      obtain ⟨p, hp, rfl⟩ := List.mem_map.mp hx
      exact hall p hp)]
  rfl

theorem insertDatapoints_no_new_no_writes (store : Store) (a : Nat)
    (bb : List Datapoint) (hbb : store a = some bb)
    (hbsort : List.Pairwise tsLT bb) (hbday : ∀ p ∈ bb, dayOf p.timestamp = a)
    (pts : List Datapoint) (hsub : ∀ p ∈ pts, p ∈ bb) :
    (insertDatapoints store (pts.map (fun p => ⟨some p.timestamp, p.value⟩))).writes = [] ∧
    (insertDatapoints store (pts.map (fun p => ⟨some p.timestamp, p.value⟩))).store = store := by
  have hvalid := validatePoints_roundtrip pts
  by_cases hpe : pts = []
  · subst hpe
    exact ⟨rfl, rfl⟩
  · have hdays : ∀ p ∈ pts, dayOf p.timestamp = a := fun p hp => hbday p (hsub p hp)
    have htd := touchedDays_single_day pts a hpe hdays
    have hload : (store a).getD [] = bb := by rw [hbb]; rfl
    have hpod : pointsOfDay a pts = pts :=
      List.filter_eq_self.mpr (fun p hp => by simp [pointsOfDay, hdays p hp])
    have hmerge : mergeDay ((store a).getD []) (pointsOfDay a pts) = (store a).getD [] := by
      rw [hload, hpod]
      exact mergeDay_self bb pts hbsort hsub
    constructor
    · rw [insertDatapoints_writes_ok store _ pts hvalid, htd, processDays,
        if_pos hmerge]
      rfl
    · rw [insertDatapoints_store_ok store _ pts hvalid, htd, processDays,
        if_pos hmerge]
      rfl

/-- C3: the backfill collector is idempotent with respect to storage: when
the store satisfies the documented bucket invariant and the monitoring API
returns only datapoints already stored in the anchor bucket, `collect()`
performs zero object-store writes and leaves the store unchanged. -/
theorem collect_idempotent (store : Store) (today now : Nat)
    (api : Nat → Nat → List Datapoint) (hinv : StoreInv store)
    (hapi : ∀ p ∈ api (anchorResume store today) now,
        normalizePoint p ∈ anchorBucket store today) :
    (collect store today now api).writes = [] ∧
    (collect store today now api).store = store := by
  have hmem : ∀ p ∈ (api (anchorResume store today) now).map normalizePoint,
      p ∈ anchorBucket store today := by
    intro p hp
    obtain ⟨q, hq, rfl⟩ := List.mem_map.mp hp
    exact hapi q hq
  match hsb : store (anchorDay store today) with
  | some bb =>
    have habb : anchorBucket store today = bb := by
      unfold anchorBucket
      rw [hsb]
      rfl
    obtain ⟨hbsort, hbday⟩ := hinv (anchorDay store today) bb hsb
    exact insertDatapoints_no_new_no_writes store (anchorDay store today) bb hsb
      hbsort hbday ((api (anchorResume store today) now).map normalizePoint)
      (fun p hp => habb ▸ hmem p hp)
  | none =>
    have hab : anchorBucket store today = [] := by
      unfold anchorBucket
      rw [hsb]
      rfl
    have hpe : (api (anchorResume store today) now).map normalizePoint = [] := by
      match hl : (api (anchorResume store today) now).map normalizePoint with
      | [] => rfl
      | p :: rest =>
        have hp := hmem p (by rw [hl]; exact List.mem_cons_self p rest)
        rw [hab] at hp
        exact absurd hp (List.not_mem_nil p)
    constructor
    · show (insertDatapoints store
        (((api (anchorResume store today) now).map normalizePoint).map
          (fun p => ⟨some p.timestamp, p.value⟩))).writes = []
      rw [hpe]
      rfl
    · show (insertDatapoints store
        (((api (anchorResume store today) now).map normalizePoint).map
          (fun p => ⟨some p.timestamp, p.value⟩))).store = store
      rw [hpe]
      rfl

/-- Store of the collect witnesses: day 1 holds one minute-aligned datapoint
at 00:01 UTC of day 1. -/
def storeC : Store := fun d => if d = 1 then some [⟨86460000, 5⟩] else none

theorem storeC_inv : StoreInv storeC := by
  intro d b hb
  unfold storeC at hb
  by_cases hd : d = 1
  · rw [if_pos hd] at hb
    cases hb
    subst hd
    refine ⟨by decide, ?_⟩
    intro p hp
    rw [List.mem_singleton] at hp
    subst hp
    decide
  · rw [if_neg hd] at hb
    cases hb

/-- Witness for C3 at scenario 4 of the specification: the API returning
exactly the stored datapoint back causes zero writes. -/
theorem collect_idempotent_witness :
    (collect storeC 1 86520000 (fun _ _ => [⟨86460000, 5⟩])).writes = [] ∧
    (collect storeC 1 86520000 (fun _ _ => [⟨86460000, 5⟩])).store = storeC :=
  collect_idempotent storeC 1 86520000 (fun _ _ => [⟨86460000, 5⟩]) storeC_inv
    (by decide)

theorem pairwise_le_getLast :
    ∀ (l : List Datapoint), List.Pairwise tsLE l → ∀ p, l.getLast? = some p →
      p ∈ l ∧ ∀ q ∈ l, q.timestamp ≤ p.timestamp
  | [], _, p, h => by simp at h
  | [x], _, p, h => by
    rw [List.getLast?_singleton] at h
    injection h with h
    subst h
    refine ⟨List.mem_singleton.mpr rfl, ?_⟩
    intro q hq
    rw [List.mem_singleton.mp hq]
  | x :: y :: t, hp, p, h => by
    rw [List.getLast?_cons_cons] at h
    obtain ⟨hmem, hmax⟩ := pairwise_le_getLast (y :: t) hp.of_cons p h
    refine ⟨List.mem_cons_of_mem _ hmem, ?_⟩
    intro q hq
    rcases List.mem_cons.mp hq with rfl | hq2
    · exact List.rel_of_pairwise_cons hp hmem
    · exact hmax q hq2

/-- C4: under the documented bucket invariant, the resume instant that
`collect()` passes to the monitoring API is determined by the anchor rule:
when today's bucket loads (even empty) it is the timestamp of that bucket's
latest datapoint if any exist, else the start of today; when today's bucket
does not load, yesterday's bucket is used under the same rule. -/
theorem collect_resume_anchor (store : Store) (today now : Nat)
    (api : Nat → Nat → List Datapoint) (hinv : StoreInv store) :
    (∀ b, store today = some b →
      (b = [] → (collect store today now api).queryBegin = startOfDay today) ∧
      (b ≠ [] → ∃ p, p ∈ b ∧
        (collect store today now api).queryBegin = p.timestamp ∧
        ∀ q ∈ b, q.timestamp ≤ p.timestamp)) ∧
    (store today = none →
      ((store (today - 1)).getD [] = [] →
        (collect store today now api).queryBegin = startOfDay (today - 1)) ∧
      ((store (today - 1)).getD [] ≠ [] →
        ∃ p, p ∈ (store (today - 1)).getD [] ∧
          (collect store today now api).queryBegin = p.timestamp ∧
          ∀ q ∈ (store (today - 1)).getD [], q.timestamp ≤ p.timestamp)) := by
  have hq : (collect store today now api).queryBegin = anchorResume store today := rfl
  constructor
  · intro b hb
    have had : anchorDay store today = today := by
      unfold anchorDay
      rw [hb]
      rfl
    have hab : anchorBucket store today = b := by
      unfold anchorBucket
      rw [had, hb]
      rfl
    constructor
    · intro hbe
      rw [hq]
      unfold anchorResume lastTimestampOr
      rw [hab, hbe, had]
      rfl
    · intro hbne
      have hsorted : List.Pairwise tsLE b :=
        ((hinv today b hb).1).imp fun h => Nat.le_of_lt h
      obtain ⟨p, hple⟩ : ∃ p, b.getLast? = some p := by
        match hgl : b.getLast? with
        | some p => exact ⟨p, rfl⟩
        | none => exact absurd (List.getLast?_eq_none_iff.mp hgl) hbne
      obtain ⟨hmem, hmax⟩ := pairwise_le_getLast b hsorted p hple
      refine ⟨p, hmem, ?_, hmax⟩
      rw [hq]
      unfold anchorResume lastTimestampOr
      rw [hab, hple]
  · intro hb
    have had : anchorDay store today = today - 1 := by
      unfold anchorDay
      rw [hb]
      rfl
    have hab : anchorBucket store today = (store (today - 1)).getD [] := by
      unfold anchorBucket
      rw [had]
    constructor
    · intro hbe
      rw [hq]
      unfold anchorResume lastTimestampOr
      rw [hab, hbe, had]
      rfl
    · intro hbne
      have hsorted : List.Pairwise tsLE ((store (today - 1)).getD []) := by
        match hy : store (today - 1) with
        | some b2 =>
          exact ((hinv (today - 1) b2 hy).1).imp fun h => Nat.le_of_lt h
        | none =>
          exact List.Pairwise.nil
      obtain ⟨p, hple⟩ : ∃ p, ((store (today - 1)).getD []).getLast? = some p := by
        match hgl : ((store (today - 1)).getD []).getLast? with
        | some p => exact ⟨p, rfl⟩
        | none => exact absurd (List.getLast?_eq_none_iff.mp hgl) hbne
      obtain ⟨hmem, hmax⟩ := pairwise_le_getLast _ hsorted p hple
      refine ⟨p, hmem, ?_, hmax⟩
      rw [hq]
      unfold anchorResume lastTimestampOr
      rw [hab, hple]

/-- Store of the empty-anchor witness: day 1 holds an empty bucket. -/
def storeE : Store := fun d => if d = 1 then some [] else none

theorem storeE_inv : StoreInv storeE := by
  intro d b hb
  unfold storeE at hb
  by_cases hd : d = 1
  · rw [if_pos hd] at hb
    cases hb
    exact ⟨List.Pairwise.nil, fun p hp => absurd hp (List.not_mem_nil p)⟩
  · rw [if_neg hd] at hb
    cases hb

/-- Witness for C4: the resume instant is the latest stored timestamp when
today's bucket holds one, the same of yesterday when today's bucket is
absent, and the start of today when today's bucket loads empty. -/
theorem collect_resume_anchor_witness :
    (collect storeC 1 0 (fun _ _ => [])).queryBegin = 86460000 ∧
    (collect storeC 2 0 (fun _ _ => [])).queryBegin = 86460000 ∧
    (collect storeE 1 0 (fun _ _ => [])).queryBegin = startOfDay 1 := by
  refine ⟨?_, ?_, ?_⟩
  · obtain ⟨p, hp, hq2, _⟩ :=
      ((collect_resume_anchor storeC 1 0 (fun _ _ => []) storeC_inv).1
        [⟨86460000, 5⟩] rfl).2 (by decide)
    have hp2 : p = ⟨86460000, 5⟩ := List.mem_singleton.mp hp
    rw [hq2, hp2]
  · obtain ⟨p, hp, hq2, _⟩ :=
      ((collect_resume_anchor storeC 2 0 (fun _ _ => []) storeC_inv).2 rfl).2
        (by decide)
    have hp2 : p = ⟨86460000, 5⟩ := List.mem_singleton.mp hp
    rw [hq2, hp2]
  · exact ((collect_resume_anchor storeE 1 0 (fun _ _ => []) storeE_inv).1 [] rfl).1 rfl
